/-
Verification of the orchestration core of the OrchastratorChatBot repository.

This file gives a shallow embedding, in Lean 4, of the three subsystems the
specification calls THE CORE:
  * the token-budgeted prompt assembly of `cogops/utils/token_manager.py`
    (`TokenManager.count_tokens`, `TokenManager._truncate_history`,
    `TokenManager.build_safe_prompt`);
  * the retrieval fusion of `cogops/retriver/vector_search.py`
    (`VectorRetriever._query_collection_async`,
    `VectorRetriever.retrieve_passages` with reciprocal-rank fusion);
  * the streaming tool-call engine of `cogops/models/qwen3async_llm.py`
    (`AsyncLLMService.stream_with_tool_calls`) together with the history
    window update of `cogops/agent.py` (`ChatAgent.process_query`).

Modelling conventions:
  * The HuggingFace tokenizer is an external dependency; it is modelled by an
    abstract `Tokenizer` record.  `encode` models
    `tokenizer.encode(text, add_special_tokens=False)` (the encoding used by
    `count_tokens`), `encodeWithSpecials` models the default
    `tokenizer.encode(text)` used on the hard-truncation path, and
    `decodeSkipSpecials` models `tokenizer.decode(ids, skip_special_tokens=True)`.
  * Python `str.format` templates are modelled as lists of parts: literal
    text and `\x7bkey\x7d` placeholders.  A `KeyError` escaping
    `build_safe_prompt` is modelled by the `none` result.
  * Python floats that only carry configuration fractions
    (`history_truncation_budget`) and the RRF scores are modelled with exact
    rationals; `int(x)` on a float is modelled by truncation toward zero.
  * Exceptions of fallible collaborators (a vector collection, the SQL
    database, the model endpoint, `json.loads`, a tool function) are modelled
    with `Except`; an exception swallowed by a `try/except` block becomes a
    `match` on that value.
  * The sequential `for tool_call in tool_calls: ... await ...` loop of
    `stream_with_tool_calls` is embedded as a recursive function that also
    records a start/finish execution trace, faithful to asyncio semantics:
    each awaited call runs to completion before the next iteration begins.
-/
import Mathlib

/-! ## Tokenizer abstraction and `TokenManager` (cogops/utils/token_manager.py) -/

/-- Abstract model of the HuggingFace tokenizer held by `TokenManager`. -/
structure Tokenizer where
  encode : String → List Nat
  encodeWithSpecials : String → List Nat
  decodeSkipSpecials : List Nat → String

/-- `TokenManager.count_tokens`: zero for the empty string, otherwise the
length of the encoding without special tokens. -/
def count_tokens (t : Tokenizer) (s : String) : Nat :=
  if s.isEmpty then 0 else (t.encode s).length

/-- The history formatting used by `_truncate_history` (and by
`ChatAgent._format_conversation_history`). -/
def format_history (h : List (String × String)) : String :=
  String.intercalate "\n---\n" (h.map fun p => "User: " ++ p.1 ++ "\nAssistant: " ++ p.2)

/-- The fixed string returned when even the most recent turn does not fit. -/
def history_overflow_message : String :=
  "History is too long to be included in this turn's context."

/-- The fixed string used when there is no (non-empty) history. -/
def no_history_message : String := "No conversation history yet."

/-- The `while truncated_history:` loop of `_truncate_history`: format the
remaining turns; if they fit the budget return the formatted string, else pop
the oldest turn; an emptied list yields the overflow message.  The budget is
an `Int` because Python computes it as `int(remaining * fraction)`. -/
def truncate_history_loop (t : Tokenizer) (m : Int) : List (String × String) → String
  | [] => history_overflow_message
  | u :: rest =>
    if (count_tokens t (format_history (u :: rest)) : Int) ≤ m then
      format_history (u :: rest)
    else truncate_history_loop t m rest

/-- `TokenManager._truncate_history`. -/
def truncate_history (t : Tokenizer) (history : List (String × String)) (m : Int) : String :=
  if history.isEmpty then no_history_message else truncate_history_loop t m history

/-- One part of a `str.format` template: literal text or a named placeholder. -/
inductive TemplatePart
  | lit (s : String)
  | field (key : String)
deriving DecidableEq, Repr

/-- `template.format(**env)` over the parsed template: every placeholder must
be bound or the whole call raises `KeyError` (modelled by `none`). -/
def render_template (env : String → Option String) : List TemplatePart → Option String
  | [] => some ""
  | .lit s :: rest => (render_template env rest).map (fun r => s ++ r)
  | .field k :: rest =>
    match env k with
    | some v => (render_template env rest).map (fun r => v ++ r)
    | none => none

/-- Python `int()` applied to a rational value: truncation toward zero. -/
def py_int_of_rat (q : ℚ) : Int :=
  if q < 0 then -((-q).num.fdiv (-q).den) else q.num.fdiv q.den

/-- The last-resort path of `build_safe_prompt`: encode with special tokens,
keep the first `max_tokens` ids, decode skipping special tokens. -/
def hard_truncate (t : Tokenizer) (max_tokens : Nat) (p : String) : String :=
  t.decodeSkipSpecials ((t.encodeWithSpecials p).take max_tokens)

/-- The `conversation_history` component computed by `build_safe_prompt`:
count the non-history fields, clamp the remaining budget at zero, give the
history its configured fraction of it, and truncate the history to fit. -/
def history_component (t : Tokenizer) (reservation_tokens : Nat) (history_budget : ℚ)
    (max_tokens : Nat) (fields : List (String × String))
    (history : Option (List (String × String))) : String :=
  let tokens_used : Nat := (fields.map fun kv => count_tokens t kv.2).sum
  let available_content_tokens : Int := (max_tokens : Int) - (reservation_tokens : Int)
  let remaining_tokens : Int :=
    if available_content_tokens - (tokens_used : Int) < 0 then 0
    else available_content_tokens - (tokens_used : Int)
  let history_budget_tokens : Int := py_int_of_rat ((remaining_tokens : ℚ) * history_budget)
  match history with
  | some h => if h.isEmpty then no_history_message else truncate_history t h history_budget_tokens
  | none => no_history_message

/-- The `final_components` dictionary of `build_safe_prompt`, as a lookup:
the raw kwargs fields (which never contain the key `history`), overridden by
`conversation_history` (the truncated history) and `history` (the raw kwargs
history list rendered by Python `str`, modelled by the parameter `hrepr`). -/
def prompt_env (t : Tokenizer) (reservation_tokens : Nat) (history_budget : ℚ)
    (hrepr : List (String × String) → String) (max_tokens : Nat)
    (fields : List (String × String)) (history : Option (List (String × String))) :
    String → Option String := fun k =>
  if k = "history" then some (hrepr (history.getD []))
  else if k = "conversation_history" then
    some (history_component t reservation_tokens history_budget max_tokens fields history)
  else List.lookup k fields

/-- `TokenManager.build_safe_prompt`: assemble the prompt from the template;
on a `KeyError`, retry with the components filtered to the placeholders that
occur in the template (the code's fallback branch); finally re-measure the
assembled prompt and hard-truncate it when it exceeds `max_tokens`.  `none`
models an uncaught `KeyError`. -/
def build_safe_prompt (t : Tokenizer) (reservation_tokens : Nat) (history_budget : ℚ)
    (hrepr : List (String × String) → String) (template : List TemplatePart)
    (max_tokens : Nat) (fields : List (String × String))
    (history : Option (List (String × String))) : Option String :=
  match render_template
      (prompt_env t reservation_tokens history_budget hrepr max_tokens fields history)
      template with
  | some p => some (if count_tokens t p ≤ max_tokens then p else hard_truncate t max_tokens p)
  | none =>
    match render_template
        (fun k => if TemplatePart.field k ∈ template then
          prompt_env t reservation_tokens history_budget hrepr max_tokens fields history k
        else none)
        template with
    | some p => some (if count_tokens t p ≤ max_tokens then p else hard_truncate t max_tokens p)
    | none => none

/-- Specification-side description of history truncation (from the spec's
words, for the refinement claim C5): the retained history is the formatted
most recent contiguous suffix obtained by dropping the least number of oldest
turns that makes it fit; if no suffix fits, the overflow message. -/
def spec_truncated_history (t : Tokenizer) (history : List (String × String)) (m : Int) : String :=
  match (List.range history.length).find?
      (fun k => decide ((count_tokens t (format_history (history.drop k)) : Int) ≤ m)) with
  | some k => format_history (history.drop k)
  | none => history_overflow_message

/-- A concrete tokenizer (one token per character) used to instantiate the
abstract `Tokenizer` in witnesses and counterexamples. -/
def char_tokenizer : Tokenizer where
  encode s := s.data.map Char.toNat
  encodeWithSpecials s := s.data.map Char.toNat
  decodeSkipSpecials ts := String.mk (ts.map Char.ofNat)

theorem char_tokenizer_reencode (ts : List Nat) :
    count_tokens char_tokenizer (char_tokenizer.decodeSkipSpecials ts) ≤ ts.length := by
  unfold count_tokens char_tokenizer
  split
  · exact Nat.zero_le _
  · simp [String.mk]

/-! ## Retrieval fusion (cogops/retriver/vector_search.py) -/

/-- `VectorRetriever._query_collection_async`: one collection query.  The raw
collection response is modelled as `Except` (the `try/except` returns `[]` on
any error) carrying, per result position, the optional integer passage id
(`None` both when the metadata key is absent and when `int()` fails — those
entries are skipped, but positions still count toward the rank `i + 1`). -/
def query_collection (result : Except String (List (Option Nat))) : List (Nat × Nat) :=
  match result with
  | .error _ => []
  | .ok metas => metas.enum.filterMap fun p => p.2.map fun pid => (pid, p.1 + 1)

/-- `fused_scores[passage_id] += s` on the insertion-ordered `defaultdict`:
update the existing entry in place, or append a fresh one at the end. -/
def bump_score (pid : Nat) (s : ℚ) : List (Nat × ℚ) → List (Nat × ℚ)
  | [] => [(pid, s)]
  | (p, v) :: rest =>
    if p = pid then (p, v + s) :: rest else (p, v) :: bump_score pid s rest

/-- The reciprocal-rank-fusion accumulation loop of `retrieve_passages`
(step 3): for every ranked list and every `(passage_id, rank)` in it, add
`1 / (rrf_k + rank)` to that passage's fused score. -/
def fused_scores (rrf_k : ℚ) (lists : List (List (Nat × Nat))) : List (Nat × ℚ) :=
  lists.foldl
    (fun acc l => l.foldl (fun acc pr => bump_score pr.1 (1 / (rrf_k + (pr.2 : ℚ))) acc) acc) []

/-- The descending-score order used by `sorted(..., key=score, reverse=True)`. -/
def score_desc (a b : Nat × ℚ) : Prop := b.2 ≤ a.2

instance : DecidableRel score_desc := fun a b => inferInstanceAs (Decidable (b.2 ≤ a.2))

instance : IsTotal (Nat × ℚ) score_desc := ⟨fun a b => le_total b.2 a.2⟩

instance : IsTrans (Nat × ℚ) score_desc := ⟨fun _ _ _ h1 h2 => le_trans h2 h1⟩

/-- `sorted_passage_ids` of `retrieve_passages` (step 4): the fused-score
keys sorted descending by score.  Python's sort is stable, so it is embedded
as a stable insertion sort over the insertion-ordered score pairs. -/
def sorted_passage_ids (rrf_k : ℚ) (lists : List (List (Nat × Nat))) : List Nat :=
  (List.insertionSort score_desc (fused_scores rrf_k lists)).map Prod.fst

/-- `top_passage_ids` of `retrieve_passages`: the best `max_passages_to_select`. -/
def retrieve_passage_ids (rrf_k : ℚ) (max_passages_to_select : Nat)
    (results : List (Except String (List (Option Nat)))) : List Nat :=
  (sorted_passage_ids rrf_k (results.map query_collection)).take max_passages_to_select

/-- The `passage_map` lookup of `retrieve_passages` step 5: a Python dict
comprehension keeps the last row for a repeated id. -/
def passage_map_lookup (rows : List (Nat × String)) (pid : Nat) : Option String :=
  List.lookup pid rows.reverse

/-- `VectorRetriever.retrieve_passages` end to end: fuse and rank the
per-collection results, keep the top ids, hydrate them from the database
(modelled by `fetch`; a database error or an empty frame yields `[]`), and
re-order the rows to the fused ranking, silently dropping missing ids. -/
def retrieve_passages (rrf_k : ℚ) (max_passages_to_select : Nat)
    (results : List (Except String (List (Option Nat))))
    (fetch : List Nat → Except String (List (Nat × String))) : List (Nat × String) :=
  let top := retrieve_passage_ids rrf_k max_passages_to_select results
  if top.isEmpty then []
  else
    match fetch top with
    | .error _ => []
    | .ok rows =>
      if rows.isEmpty then []
      else top.filterMap fun pid => (passage_map_lookup rows pid).map fun txt => (pid, txt)

/-- Specification-side first-seen order (from the spec's words, for claim C3):
the order in which distinct ids first appear across the ranked lists. -/
def spec_first_seen (ids : List Nat) : List Nat :=
  ids.foldl (fun acc x => if x ∈ acc then acc else acc ++ [x]) []

/-! ## Streaming tool-call engine (cogops/models/qwen3async_llm.py) -/

/-- The error taxonomy relevant to a model-endpoint call: a transient network
failure, the structural context-window overflow (`BadRequestError` carrying a
context-length message), or anything else. -/
inductive ErrorKind
  | networkTransient
  | contextWindow
  | other
deriving DecidableEq, Repr

/-- One tool-call fragment of a streamed delta, keyed by positional index. -/
structure ToolCallDelta where
  index : Nat
  id : Option String
  name : Option String
  arguments : Option String
deriving DecidableEq, Repr

/-- One streamed chunk's delta: optional text content plus tool-call fragments. -/
structure StreamDelta where
  content : Option String
  tool_calls : List ToolCallDelta
deriving DecidableEq, Repr

/-- A reconstructed tool call. -/
structure ToolCall where
  id : String
  name : String
  arguments : String
deriving DecidableEq, Repr

/-- A `role: "tool"` message appended to the transcript. -/
structure ToolMessage where
  tool_call_id : String
  name : String
  content : String
deriving DecidableEq, Repr

/-- The structured events the engine yields to the caller. -/
inductive ChatEvent
  | answer_chunk (content : String)
  | tool_call (tool_name : String)
  | error (content : String)
deriving DecidableEq, Repr

/-- Execution trace marks for tool invocations: call `i` started / finished. -/
inductive ToolTraceStep
  | start (i : Nat)
  | finish (i : Nat)
deriving DecidableEq, Repr

/-- The fixed error content yielded by the engine's blanket `except` handler. -/
def internal_error_message : String :=
  "An internal error occurred while processing your request."

/-- The prefix of a tool-result message recording a caught per-call exception. -/
def tool_failure_text (e : String) : String :=
  "Error: Tool execution failed with message: " ++ e

/-- The allow-list of tools that receive `session_meta` injection. -/
def session_aware_tools : List String := ["get_user_order_profile_as_markdown"]

/-- One `tc_delta` merge into `tool_call_index_map`: concatenate the id, name
and arguments fragments into the entry of this positional index, creating the
entry at the end of the (insertion-ordered) map when absent. -/
def merge_tool_call_delta : List (Nat × ToolCall) → ToolCallDelta → List (Nat × ToolCall)
  | [], d => [(d.index, ⟨d.id.getD "", d.name.getD "", d.arguments.getD ""⟩)]
  | (i, c) :: rest, d =>
    if i = d.index then
      (i, ⟨c.id ++ d.id.getD "", c.name ++ d.name.getD "", c.arguments ++ d.arguments.getD ""⟩)
        :: rest
    else (i, c) :: merge_tool_call_delta rest d

/-- `list(tool_call_index_map.values())` after the first stream is consumed. -/
def reconstruct_tool_calls (deltas : List StreamDelta) : List ToolCall :=
  (deltas.foldl (fun m d => d.tool_calls.foldl merge_tool_call_delta m) []).map Prod.snd

/-- The `answer_chunk` events forwarded while consuming a stream: one per
chunk whose delta carries truthy (non-empty) content. -/
def content_events (deltas : List StreamDelta) : List ChatEvent :=
  deltas.filterMap fun d =>
    match d.content with
    | some s => if s.isEmpty then none else some (.answer_chunk s)
    | none => none

/-- The tool-side collaborators of the engine: the registry
(`available_tools.get`), `json.loads` (which may fail with a message), the
empty JSON object it returns on the substituted `"\x7b\x7d"` string, and the
`session_meta` injection.  The parsed-arguments type `A` is abstract. -/
structure ToolRuntime (A : Type) where
  available_tools : String → Option (A → Except String String)
  parse_json : String → Except String A
  empty_object : A
  inject_session_meta : A → A

/-- The body of one iteration of the engine's tool-execution loop, for the
call at position `i`: look the tool up (an unknown name is only logged — no
transcript message); parse the arguments, substituting the empty object for
an empty (falsy) arguments string; inject `session_meta` for allow-listed
names; invoke the tool; any caught exception (a parse failure or a tool
failure) becomes that call's error content.  The trace records the start and
finish of the actual awaited invocation, so a call whose arguments fail to
parse is never started. -/
def run_tool_call {A : Type} (rt : ToolRuntime A) (i : Nat) (c : ToolCall) :
    Option ToolMessage × List ToolTraceStep :=
  match rt.available_tools c.name with
  | none => (none, [])
  | some f =>
    match (if c.arguments.isEmpty then Except.ok rt.empty_object
           else rt.parse_json c.arguments) with
    | .error e => (some ⟨c.id, c.name, tool_failure_text e⟩, [])
    | .ok args =>
      let args := if c.name ∈ session_aware_tools then rt.inject_session_meta args else args
      match f args with
      | .ok r => (some ⟨c.id, c.name, r⟩, [.start i, .finish i])
      | .error e => (some ⟨c.id, c.name, tool_failure_text e⟩, [.start i, .finish i])

/-- The engine's `for tool_call in tool_calls:` loop, starting at position
`i`: yield the `tool_call` event, run the call to completion (sequential
`await`), then continue with the rest.  Returns the yielded events, the
appended tool messages and the execution trace, all in order. -/
def run_tool_calls {A : Type} (rt : ToolRuntime A) :
    Nat → List ToolCall → List ChatEvent × List ToolMessage × List ToolTraceStep
  | _, [] => ([], [], [])
  | i, c :: rest =>
    let r := run_tool_call rt i c
    let rs := run_tool_calls rt (i + 1) rest
    (ChatEvent.tool_call c.name :: rs.1, r.1.toList ++ rs.2.1, r.2 ++ rs.2.2)

/-- Whether the loop body actually awaits the tool function for call `c`:
the name resolves and the arguments parse (or are empty). -/
def tool_invoked {A : Type} (rt : ToolRuntime A) (c : ToolCall) : Bool :=
  (rt.available_tools c.name).isSome &&
    (c.arguments.isEmpty ||
      match rt.parse_json c.arguments with
      | .ok _ => true
      | .error _ => false)

/-- One turn of the engine as seen from outside: the model endpoint's
response to the first (tools-enabled) call and to the final call, indexed by
attempt number — the code performs no retry, so only attempt `0` of each is
ever consulted — together with the tool runtime. -/
structure EngineRun (A : Type) where
  first_attempts : Nat → Except ErrorKind (List StreamDelta)
  final_attempts : Nat → Except ErrorKind (List StreamDelta)
  runtime : ToolRuntime A

/-- Everything observable about one engine turn: the yielded events, the
tool messages appended to the transcript, how many model-endpoint calls were
made, and the tool execution trace. -/
structure EngineOutput where
  events : List ChatEvent
  tool_messages : List ToolMessage
  model_calls : Nat
  trace : List ToolTraceStep
deriving DecidableEq, Repr

/-- `AsyncLLMService.stream_with_tool_calls`: stream the first response,
forwarding content immediately and reconstructing tool calls; with no tool
calls the turn is done after one model call; otherwise execute the round's
tool calls sequentially and make one final, tools-disabled model call,
forwarding only its content.  The blanket `except` turns any endpoint failure
into the single generic error event after whatever was already yielded. -/
def stream_with_tool_calls {A : Type} (run : EngineRun A) : EngineOutput :=
  match run.first_attempts 0 with
  | .error _ => ⟨[.error internal_error_message], [], 1, []⟩
  | .ok deltas =>
    let calls := reconstruct_tool_calls deltas
    if calls.isEmpty then ⟨content_events deltas, [], 1, []⟩
    else
      let tr := run_tool_calls run.runtime 0 calls
      match run.final_attempts 0 with
      | .error _ =>
        ⟨content_events deltas ++ tr.1 ++ [.error internal_error_message], tr.2.1, 2, tr.2.2⟩
      | .ok fdeltas =>
        ⟨content_events deltas ++ tr.1 ++ content_events fdeltas, tr.2.1, 2, tr.2.2⟩

/-! ## Conversation history window (cogops/agent.py, `process_query`) -/

/-- The eviction step of `process_query`: `self.history.pop(0)` when the
window is exceeded. -/
def pop_oldest_if_over (history_window : Nat) (h : List (String × String)) :
    List (String × String) :=
  if history_window < h.length then h.drop 1 else h

/-- The history update at the end of `ChatAgent.process_query`: append the
turn when the collected final answer is non-empty, then pop the oldest turn
when the window is exceeded. -/
def update_history (history : List (String × String)) (user_query final_answer : String)
    (history_window : Nat) : List (String × String) :=
  pop_oldest_if_over history_window
    (if final_answer.isEmpty then history else history ++ [(user_query, final_answer)])

/-! ## Theorems -/

/-- The final safety check of `build_safe_prompt` returns a string within the
ceiling, provided re-encoding a decoded token list never yields more tokens
than the list held. -/
theorem checked_prompt_le (t : Tokenizer)
    (hre : ∀ ts : List Nat, count_tokens t (t.decodeSkipSpecials ts) ≤ ts.length)
    (max_tokens : Nat) (p : String) :
    count_tokens t (if count_tokens t p ≤ max_tokens then p else hard_truncate t max_tokens p)
      ≤ max_tokens := by
  split
  · assumption
  · calc count_tokens t (hard_truncate t max_tokens p)
        ≤ ((t.encodeWithSpecials p).take max_tokens).length := hre _
      _ ≤ max_tokens := by
        rw [List.length_take]
        exact min_le_left _ _

/-- Claim C1: for every template, `max_tokens` value and set of field values,
the prompt returned by `build_safe_prompt` holds at most `max_tokens` tokens
as measured by `count_tokens`, including on the last-resort hard-truncation
path.  The hypothesis on the tokenizer states the round-trip contract of the
external HuggingFace tokenizer that the hard-truncation path relies on:
re-encoding a decoded token sequence yields at most as many tokens. -/
theorem build_safe_prompt_token_ceiling (t : Tokenizer)
    (hre : ∀ ts : List Nat, count_tokens t (t.decodeSkipSpecials ts) ≤ ts.length)
    (reservation_tokens : Nat) (history_budget : ℚ)
    (hrepr : List (String × String) → String) (template : List TemplatePart)
    (max_tokens : Nat) (fields : List (String × String))
    (history : Option (List (String × String))) (s : String)
    (h : build_safe_prompt t reservation_tokens history_budget hrepr template
          max_tokens fields history = some s) :
    count_tokens t s ≤ max_tokens := by
  unfold build_safe_prompt at h
  split at h
  · cases h
    exact checked_prompt_le t hre max_tokens _
  · split at h
    · cases h
      exact checked_prompt_le t hre max_tokens _
    · cases h

theorem build_safe_prompt_token_ceiling_witness :
    count_tokens char_tokenizer "hi" ≤ 10 :=
  build_safe_prompt_token_ceiling char_tokenizer char_tokenizer_reencode 0 0 (fun _ => "")
    [TemplatePart.lit "hi"] 10 [] none "hi" (by decide)

/-- Claim C10: one `process_query` history update preserves the window bound,
and appends at most one turn. -/
theorem history_window_invariant (history : List (String × String))
    (user_query final_answer : String) (history_window : Nat)
    (h : history.length ≤ history_window) :
    (update_history history user_query final_answer history_window).length ≤ history_window ∧
      (update_history history user_query final_answer history_window).length
        ≤ history.length + 1 := by
  unfold update_history pop_oldest_if_over
  split_ifs <;> simp_all [List.length_drop, List.length_append] <;> omega

theorem history_window_invariant_witness :
    (update_history [("q1", "a1")] "q2" "a2" 1).length ≤ 1 ∧
      (update_history [("q1", "a1")] "q2" "a2" 1).length ≤ [("q1", "a1")].length + 1 :=
  history_window_invariant [("q1", "a1")] "q2" "a2" 1 (by decide)

/-- The 30-character context block used in the counterexample to claim C7. -/
def context_block_30 : String := "ABCDEFGHIJKLMNOPQRSTUVWXYZ0123"

/-- Counterexample to claim C7.  With the one-token-per-character tokenizer,
`max_tokens = 100` and `reservation_tokens = 90`, the available content
budget is `100 - 90 = 10` tokens, the history fits nothing (its budget is
`int(0 * 1/2) = 0`, so zero history tokens are used), yet the returned
prompt is the 30-token context block verbatim: `build_safe_prompt` never
trims a context field against `available - history_tokens_used` (here
`10 - 0 = 10`), neither by whole units nor by token-level truncation of the
block alone — contradicting the claim, which requires the block as returned
to fit within 10 tokens. -/
theorem context_block_trimming_counterexample :
    build_safe_prompt char_tokenizer 90 (1/2 : ℚ) (fun _ => "")
        [TemplatePart.field "ctx"] 100 [("ctx", context_block_30)] (some [("u", "a")])
      = some context_block_30 ∧
      count_tokens char_tokenizer context_block_30 = 30 ∧
      ¬ count_tokens char_tokenizer context_block_30 ≤ (100 - 90) - 0 := by
  refine ⟨by decide, by decide, by decide⟩

/-- Claim C7 as amended: `build_safe_prompt` performs no trimming of a
context block at all.  Every non-history field enters the component
dictionary verbatim, and whenever the template renders, the returned prompt
is exactly that rendering — subject only to the final whole-prompt
hard-truncation check; no block-wise whole-unit trimming or per-block
token-level truncation exists. -/
theorem no_context_block_trimming :
    (∀ (t : Tokenizer) (reservation_tokens : Nat) (history_budget : ℚ)
       (hrepr : List (String × String) → String) (template : List TemplatePart)
       (max_tokens : Nat) (fields : List (String × String))
       (history : Option (List (String × String))) (p : String),
       render_template
           (prompt_env t reservation_tokens history_budget hrepr max_tokens fields history)
           template = some p →
       build_safe_prompt t reservation_tokens history_budget hrepr template max_tokens
           fields history =
         some (if count_tokens t p ≤ max_tokens then p else hard_truncate t max_tokens p)) ∧
    (∀ (t : Tokenizer) (reservation_tokens : Nat) (history_budget : ℚ)
       (hrepr : List (String × String) → String) (max_tokens : Nat)
       (fields : List (String × String)) (history : Option (List (String × String)))
       (k v : String),
       k ≠ "history" → k ≠ "conversation_history" →
       List.lookup k fields = some v →
       prompt_env t reservation_tokens history_budget hrepr max_tokens fields history k
         = some v) := by
  constructor
  · intro t resv hb hrepr template maxtok fields history p hrender
    unfold build_safe_prompt
    rw [hrender]
  · intro t resv hb hrepr maxtok fields history k v hk1 hk2 hlook
    unfold prompt_env
    rw [if_neg hk1, if_neg hk2]
    exact hlook

/-- The truncation loop returns the formatted suffix for the least number of
dropped oldest turns that fits, and the overflow message when none does. -/
theorem truncate_history_loop_eq (t : Tokenizer) (m : Int) :
    ∀ h : List (String × String),
      truncate_history_loop t m h =
        match (List.range h.length).find?
            (fun k => decide ((count_tokens t (format_history (h.drop k)) : Int) ≤ m)) with
        | some k => format_history (h.drop k)
        | none => history_overflow_message
  | [] => by simp [truncate_history_loop, List.range_zero]
  | u :: rest => by
    rw [truncate_history_loop, List.length_cons, List.range_succ_eq_map]
    by_cases hc : (count_tokens t (format_history (u :: rest)) : Int) ≤ m
    · rw [if_pos hc, List.find?_cons_of_pos _ (by simpa using hc)]
      simp
    · rw [if_neg hc, List.find?_cons_of_neg _ (by simpa using hc), List.find?_map]
      have hpred : ((fun k => decide ((count_tokens t
            (format_history ((u :: rest).drop k)) : Int) ≤ m)) ∘ Nat.succ) =
          (fun k => decide ((count_tokens t (format_history (rest.drop k)) : Int) ≤ m)) := by
        funext k
        rfl
      rw [hpred, truncate_history_loop_eq t m rest]
      cases hf : (List.range rest.length).find?
          (fun k => decide ((count_tokens t (format_history (rest.drop k)) : Int) ≤ m)) with
      | none => simp
      | some k => simp

/-- Claim C5: for every history and budget, `_truncate_history` returns
exactly what the spec describes — the formatted most recent contiguous
suffix, in original order, obtained by dropping the fewest oldest whole
turns that makes it fit, and the fixed placeholder when even the single most
recent turn exceeds the budget. -/
theorem truncate_history_correct (t : Tokenizer) (history : List (String × String)) (m : Int)
    (hne : history ≠ []) :
    truncate_history t history m = spec_truncated_history t history m := by
  cases history with
  | nil => exact absurd rfl hne
  | cons u rest =>
    unfold truncate_history spec_truncated_history
    simp only [List.isEmpty_cons, Bool.false_eq_true, if_false]
    exact truncate_history_loop_eq t m (u :: rest)

theorem truncate_history_correct_witness :
    truncate_history char_tokenizer [("a", "b"), ("c", "d")] 30 =
      spec_truncated_history char_tokenizer [("a", "b"), ("c", "d")] 30 :=
  truncate_history_correct char_tokenizer [("a", "b"), ("c", "d")] 30 (by decide)

theorem lookup_bump_score (pid x : Nat) (s : ℚ) :
    ∀ acc : List (Nat × ℚ),
      List.lookup x (bump_score pid s acc) =
        if pid = x then some ((List.lookup x acc).getD 0 + s) else List.lookup x acc
  | [] => by
    by_cases hx : pid = x
    · subst hx
      simp [bump_score, List.lookup]
    · have h1 : (x == pid) = false := by
        simp only [beq_eq_false_iff_ne, ne_eq]
        exact fun h => hx h.symm
      simp [bump_score, List.lookup, h1, hx]
  | (p, v) :: rest => by
    by_cases hpp : p = pid
    · subst hpp
      by_cases hx : p = x
      · subst hx
        simp [bump_score, List.lookup]
      · have h1 : (x == p) = false := by
          simp only [beq_eq_false_iff_ne, ne_eq]
          exact fun h => hx h.symm
        simp [bump_score, List.lookup, h1, hx]
    · by_cases hx : p = x
      · subst hx
        have hpx : ¬ pid = p := fun h => hpp h.symm
        simp [bump_score, List.lookup, hpp, hpx]
      · have h1 : (x == p) = false := by
          simp only [beq_eq_false_iff_ne, ne_eq]
          exact fun h => hx h.symm
        simp [bump_score, List.lookup, h1, hpp, lookup_bump_score pid x s rest]

theorem lookup_foldl_bump (k : ℚ) (x : Nat) :
    ∀ (pairs : List (Nat × Nat)) (acc : List (Nat × ℚ)),
      List.lookup x
          (pairs.foldl (fun a pr => bump_score pr.1 (1 / (k + (pr.2 : ℚ))) a) acc) =
        if pairs.any (fun pr => pr.1 == x) then
          some ((List.lookup x acc).getD 0 +
            ((pairs.filter (fun pr => pr.1 == x)).map (fun pr => 1 / (k + (pr.2 : ℚ)))).sum)
        else List.lookup x acc
  | [], acc => by simp
  | pr :: rest, acc => by
    rw [List.foldl_cons, lookup_foldl_bump k x rest, lookup_bump_score pr.1 x _ acc]
    by_cases hpx : pr.1 = x
    · have hb : (pr.1 == x) = true := by simpa [beq_iff_eq] using hpx
      by_cases hrest : rest.any (fun q => q.1 == x) = true
      · simp [List.any_cons, List.filter_cons, hb, hrest, hpx, add_assoc]
      · have hfil : List.filter (fun q => q.1 == x) rest = [] := by
          rw [List.filter_eq_nil_iff]
          exact fun a ha hb' => hrest (List.any_eq_true.mpr ⟨a, ha, hb'⟩)
        simp [List.any_cons, List.filter_cons, hb, hrest, hpx, hfil]
    · have hb : (pr.1 == x) = false := by simpa [beq_eq_false_iff_ne, ne_eq] using hpx
      by_cases hrest : rest.any (fun q => q.1 == x) = true
      · simp [List.any_cons, List.filter_cons, hb, hrest, hpx]
      · simp [List.any_cons, List.filter_cons, hb, hrest, hpx]

theorem fused_scores_eq_flatten (k : ℚ) (lists : List (List (Nat × Nat))) :
    fused_scores k lists =
      lists.flatten.foldl (fun a pr => bump_score pr.1 (1 / (k + (pr.2 : ℚ))) a) [] := by
  unfold fused_scores
  rw [List.foldl_flatten]

theorem keys_bump_score (pid : Nat) (s : ℚ) :
    ∀ acc : List (Nat × ℚ),
      (bump_score pid s acc).map Prod.fst =
        if pid ∈ acc.map Prod.fst then acc.map Prod.fst else acc.map Prod.fst ++ [pid]
  | [] => by simp [bump_score]
  | (p, v) :: rest => by
    by_cases hpp : p = pid
    · subst hpp
      simp [bump_score]
    · have hne : ¬ pid = p := fun h => hpp h.symm
      simp [bump_score, hpp, hne, keys_bump_score pid s rest]
      by_cases hmem : pid ∈ rest.map Prod.fst <;> simp [hmem, hne]

theorem keys_foldl_bump (k : ℚ) :
    ∀ (pairs : List (Nat × Nat)) (acc : List (Nat × ℚ)),
      ((pairs.foldl (fun a pr => bump_score pr.1 (1 / (k + (pr.2 : ℚ))) a) acc).map Prod.fst) =
        pairs.foldl (fun ks pr => if pr.1 ∈ ks then ks else ks ++ [pr.1]) (acc.map Prod.fst)
  | [], acc => by simp
  | pr :: rest, acc => by
    rw [List.foldl_cons, List.foldl_cons, keys_foldl_bump k rest, keys_bump_score pr.1 _ acc]

/-- Claim C3: reciprocal-rank fusion assigns each passage id the score
`sum of 1 / (rrf_k + rank)` over its occurrences across the ranked lists;
the fused map lists ids in first-seen order; the sort is descending by score;
a pair already in first-seen order whose scores satisfy the descending order
(in particular a tie) keeps that order in the sorted output (deterministic
first-seen tie-breaking, by stability of the sort); and in the spec's
concrete instance with `rrf_k = 60` — passage 1 at rank 1 in the first
collection and rank 3 in the second (score `1/61 + 1/63`), passage 2 at
rank 2 in the first collection only (score `1/62`) — passage 1 is ranked
above passage 2. -/
theorem rrf_fusion_correct :
    (∀ (rrf_k : ℚ) (lists : List (List (Nat × Nat))) (pid : Nat),
        pid ∈ lists.flatten.map Prod.fst →
        List.lookup pid (fused_scores rrf_k lists) =
          some (((lists.flatten.filter (fun pr => pr.1 == pid)).map
            (fun pr => 1 / (rrf_k + (pr.2 : ℚ)))).sum)) ∧
    (∀ (rrf_k : ℚ) (lists : List (List (Nat × Nat))),
        (fused_scores rrf_k lists).map Prod.fst =
          spec_first_seen (lists.flatten.map Prod.fst)) ∧
    (∀ (rrf_k : ℚ) (lists : List (List (Nat × Nat))),
        List.Sorted score_desc (List.insertionSort score_desc (fused_scores rrf_k lists))) ∧
    (∀ (rrf_k : ℚ) (lists : List (List (Nat × Nat))) (a b : Nat × ℚ),
        List.Sublist [a, b] (fused_scores rrf_k lists) → b.2 ≤ a.2 →
        List.Sublist [a, b] (List.insertionSort score_desc (fused_scores rrf_k lists))) ∧
    sorted_passage_ids 60 [[(1, 1), (2, 2)], [(1, 3)]] = [1, 2] := by
  refine ⟨?_, ?_, ?_, ?_, ?_⟩
  · intro k lists pid hmem
    rw [fused_scores_eq_flatten, lookup_foldl_bump]
    have hany : lists.flatten.any (fun pr => pr.1 == pid) = true := by
      rw [List.any_eq_true]
      obtain ⟨pr, hpr, hfst⟩ := List.mem_map.mp hmem
      exact ⟨pr, hpr, by simpa [beq_iff_eq] using hfst⟩
    rw [if_pos hany]
    simp
  · intro k lists
    rw [fused_scores_eq_flatten, keys_foldl_bump]
    unfold spec_first_seen
    rw [List.foldl_map]
    rfl
  · intro k lists
    exact List.sorted_insertionSort score_desc _
  · intro k lists a b hsub hle
    exact List.pair_sublist_insertionSort hle hsub
  · unfold sorted_passage_ids
    have hf : fused_scores 60 [[(1, 1), (2, 2)], [(1, 3)]] =
        [(1, 1 / 61 + 1 / 63), (2, 1 / 62)] := by
      unfold fused_scores
      norm_num [bump_score]
    rw [hf]
    have hr : score_desc (1, (61 : ℚ)⁻¹ + (63 : ℚ)⁻¹) (2, (62 : ℚ)⁻¹) := by
      unfold score_desc
      norm_num
    simp [List.insertionSort, List.orderedInsert, hr]

/-- Whether an `Except` result is a success. -/
def except_is_ok {ε α : Type} : Except ε α → Bool
  | .ok _ => true
  | .error _ => false

theorem foldl_bump_filter_ok (k : ℚ) :
    ∀ (results : List (Except String (List (Option Nat)))) (acc : List (Nat × ℚ)),
      List.foldl (fun acc l => l.foldl (fun acc pr => bump_score pr.1 (1 / (k + (pr.2 : ℚ))) acc) acc)
          acc (results.map query_collection) =
        List.foldl (fun acc l => l.foldl (fun acc pr => bump_score pr.1 (1 / (k + (pr.2 : ℚ))) acc) acc)
          acc ((results.filter except_is_ok).map query_collection)
  | [], acc => rfl
  | r :: rest, acc => by
    cases r with
    | error e =>
      simp only [List.map_cons, List.foldl_cons, List.filter_cons, query_collection,
        except_is_ok, List.foldl_nil]
      exact foldl_bump_filter_ok k rest acc
    | ok metas =>
      simp only [List.map_cons, List.foldl_cons, List.filter_cons, except_is_ok, if_true]
      exact foldl_bump_filter_ok k rest _

theorem fused_scores_filter_ok (k : ℚ) (results : List (Except String (List (Option Nat)))) :
    fused_scores k (results.map query_collection) =
      fused_scores k ((results.filter except_is_ok).map query_collection) := by
  unfold fused_scores
  exact foldl_bump_filter_ok k results []

theorem retrieve_passages_filter_ok (k : ℚ) (maxSel : Nat)
    (results : List (Except String (List (Option Nat))))
    (fetch : List Nat → Except String (List (Nat × String))) :
    retrieve_passages k maxSel results fetch =
      retrieve_passages k maxSel (results.filter except_is_ok) fetch := by
  unfold retrieve_passages retrieve_passage_ids sorted_passage_ids
  rw [fused_scores_filter_ok]

theorem foldl_bump_all_nil (k : ℚ) :
    ∀ (lists : List (List (Nat × Nat))) (acc : List (Nat × ℚ)),
      (∀ l ∈ lists, l = []) →
      List.foldl (fun acc l => l.foldl (fun acc pr => bump_score pr.1 (1 / (k + (pr.2 : ℚ))) acc) acc)
          acc lists = acc
  | [], _, _ => rfl
  | l :: rest, acc, h => by
    have hl : l = [] := h l (List.mem_cons_self l rest)
    subst hl
    simp only [List.foldl_cons, List.foldl_nil]
    exact foldl_bump_all_nil k rest acc (fun l hm => h l (List.mem_cons_of_mem _ hm))

/-- Claim C6: failed collections degrade gracefully.  Removing the failed
collections (each of which contributes an empty ranked list) does not change
the outcome of `retrieve_passages` at all — the remaining collections are
fused and ranked exactly as if the failures had not happened, and the call
returns normally (the embedding is a total function into a plain list, with
no error outcome).  When every collection yields an empty ranked list —
in particular when every collection fails — the result is the empty list,
not an error. -/
theorem retrieval_graceful_degradation :
    (∀ (rrf_k : ℚ) (max_passages_to_select : Nat)
       (results : List (Except String (List (Option Nat))))
       (fetch : List Nat → Except String (List (Nat × String))),
       retrieve_passages rrf_k max_passages_to_select results fetch =
         retrieve_passages rrf_k max_passages_to_select (results.filter except_is_ok) fetch) ∧
    (∀ (rrf_k : ℚ) (max_passages_to_select : Nat)
       (results : List (Except String (List (Option Nat))))
       (fetch : List Nat → Except String (List (Nat × String))),
       (∀ r ∈ results, query_collection r = []) →
       retrieve_passages rrf_k max_passages_to_select results fetch = []) := by
  constructor
  · exact retrieve_passages_filter_ok
  · intro k maxSel results fetch hall
    unfold retrieve_passages retrieve_passage_ids sorted_passage_ids
    rw [show fused_scores k (results.map query_collection) = [] from ?_]
    · simp
    · unfold fused_scores
      exact foldl_bump_all_nil k _ [] (by
        intro l hm
        obtain ⟨r, hr, hq⟩ := List.mem_map.mp hm
        rw [← hq]
        exact hall r hr)

/-- A tool runtime with no registered tools, for concrete engine runs. -/
def trivial_runtime : ToolRuntime Unit :=
  ⟨fun _ => none, fun _ => Except.ok (), (), id⟩

/-- A model endpoint whose first attempt fails with a transient network
error but whose second attempt would succeed — the engine never makes it. -/
def transient_then_ok_run : EngineRun Unit where
  first_attempts := fun n =>
    if n = 0 then Except.error ErrorKind.networkTransient
    else Except.ok [⟨some "recovered", []⟩]
  final_attempts := fun _ => Except.ok []
  runtime := trivial_runtime

/-- A model endpoint that reports the context-window overflow. -/
def context_window_run : EngineRun Unit where
  first_attempts := fun _ => Except.error ErrorKind.contextWindow
  final_attempts := fun _ => Except.ok []
  runtime := trivial_runtime

/-- A model that requests a tool call in every round: the first stream
carries a tool-call fragment, and so does the final stream (where the engine
ignores it, since the final call is made without tools). -/
def always_tool_run : EngineRun Unit where
  first_attempts := fun _ => Except.ok [⟨none, [⟨0, some "id1", some "mytool", some ""⟩]⟩]
  final_attempts := fun _ => Except.ok [⟨some "done", [⟨0, some "id2", some "mytool", some ""⟩]⟩]
  runtime := ⟨fun n => if n = "mytool" then some (fun _ => Except.ok "result") else none,
    fun _ => Except.ok (), (), id⟩

/-- Counterexample to claim C2.  A model that requests at least one tool
call in every round of the turn does not make the engine emit any fallback
message: the engine runs exactly one tool round, makes one final model call
with tools disabled (ignoring the tool-call fragments of that stream), and
terminates after two model calls with no `error` event at all.  There is no
configured iteration cap and no cap-fallback message in the code. -/
theorem tool_loop_cap_counterexample :
    stream_with_tool_calls always_tool_run =
      ⟨[ChatEvent.tool_call "mytool", ChatEvent.answer_chunk "done"],
        [⟨"id1", "mytool", "result"⟩], 2,
        [ToolTraceStep.start 0, ToolTraceStep.finish 0]⟩ ∧
    (∀ e ∈ (stream_with_tool_calls always_tool_run).events,
        e ≠ ChatEvent.error internal_error_message) := by
  constructor
  · decide
  · decide

/-- Claim C2 as amended: the engine is structurally bounded — every turn
makes at most two model-endpoint calls (one tools-enabled call, then at most
one tool round followed by one tools-disabled final call), for every model
behaviour and tool runtime; in particular it never loops unboundedly and,
being a total function, never hangs.  No iteration cap exists and no
fallback message is emitted at any cap. -/
theorem engine_model_calls_bounded :
    ∀ (A : Type) (run : EngineRun A), (stream_with_tool_calls run).model_calls ≤ 2 := by
  intro A run
  unfold stream_with_tool_calls
  cases run.first_attempts 0 with
  | error e => simp
  | ok deltas =>
    by_cases hc : (reconstruct_tool_calls deltas).isEmpty = true
    · simp [hc]
    · cases run.final_attempts 0 with
      | error e => simp [hc]
      | ok fdeltas => simp [hc]

/-- Counterexample to claim C8.  The streaming engine performs no retry at
all: with an endpoint whose attempt 0 fails transiently while attempt 1
would succeed, the output is the single generic error event after one model
call — the successful retry is never attempted.  And a context-window
failure produces exactly the same generic error output as the transient
network failure: it is folded into the same generic error event, not
surfaced as a distinct error. -/
theorem retry_policy_counterexample :
    stream_with_tool_calls transient_then_ok_run =
      ⟨[ChatEvent.error internal_error_message], [], 1, []⟩ ∧
    transient_then_ok_run.first_attempts 1 = Except.ok [⟨some "recovered", []⟩] ∧
    stream_with_tool_calls context_window_run = stream_with_tool_calls transient_then_ok_run := by
  refine ⟨by decide, by rfl, by decide⟩

/-- Claim C8 as amended: whatever the kind of the first model call's failure
— transient network, context-window overflow, or anything else — the engine
makes that one attempt only and yields the single fixed generic error event;
no retry, no backoff, and no distinct surfacing of the context-window
condition exist in `stream_with_tool_calls`. -/
theorem model_call_failure_single_generic_event :
    ∀ (A : Type) (run : EngineRun A) (e : ErrorKind),
      run.first_attempts 0 = Except.error e →
      stream_with_tool_calls run =
        ⟨[ChatEvent.error internal_error_message], [], 1, []⟩ := by
  intro A run e h
  unfold stream_with_tool_calls
  rw [h]

theorem model_call_failure_single_generic_event_witness :
    stream_with_tool_calls context_window_run =
      ⟨[ChatEvent.error internal_error_message], [], 1, []⟩ :=
  model_call_failure_single_generic_event Unit context_window_run ErrorKind.contextWindow rfl

/-- An engine run whose single reconstructed tool call carries a non-empty
arguments string that fails to parse as JSON. -/
def malformed_args_run : EngineRun Unit where
  first_attempts := fun _ => Except.ok [⟨none, [⟨0, some "id1", some "mytool", some "#"⟩]⟩]
  final_attempts := fun _ => Except.ok [⟨some "done", []⟩]
  runtime := ⟨fun n => if n = "mytool" then some (fun _ => Except.ok "ran") else none,
    fun _ => Except.error "Expecting value: line 1 column 1 (char 0)", (), id⟩

/-- Counterexample to claim C4.  For a reconstructed tool call whose
non-empty arguments string fails to parse as JSON, the engine does NOT
substitute an empty object and does NOT invoke the tool: the per-call
`except` records the parse failure as that call's tool-result message (the
registered tool would have returned `"ran"` on any arguments, including the
empty object, yet the recorded content is the error string), and the
execution trace is empty — the tool function was never started. -/
theorem malformed_arguments_counterexample :
    stream_with_tool_calls malformed_args_run =
      ⟨[ChatEvent.tool_call "mytool", ChatEvent.answer_chunk "done"],
        [⟨"id1", "mytool", tool_failure_text "Expecting value: line 1 column 1 (char 0)"⟩],
        2, []⟩ ∧
    (stream_with_tool_calls malformed_args_run).trace = [] ∧
    (stream_with_tool_calls malformed_args_run).tool_messages ≠ [⟨"id1", "mytool", "ran"⟩] := by
  refine ⟨by decide, by decide, by decide⟩

/-- Claim C4 as amended: the empty-object default applies only to an EMPTY
arguments string — there the call behaves exactly as if parsing always
returned the empty object, and the tool is invoked; a non-empty arguments
string that fails to parse makes the engine skip the invocation and record
the caught failure as that call's tool-result message; and in either case
the parse failure never fails the round — whenever the first stream yields
any tool calls, the final model call is still made. -/
theorem malformed_arguments_behavior :
    (∀ (A : Type) (rt : ToolRuntime A) (i : Nat) (c : ToolCall),
        c.arguments = "" →
        run_tool_call rt i c =
          run_tool_call
            ⟨rt.available_tools, fun _ => Except.ok rt.empty_object,
              rt.empty_object, rt.inject_session_meta⟩ i c) ∧
    (∀ (A : Type) (rt : ToolRuntime A) (i : Nat) (c : ToolCall)
        (f : A → Except String String) (e : String),
        rt.available_tools c.name = some f → c.arguments ≠ "" →
        rt.parse_json c.arguments = Except.error e →
        run_tool_call rt i c = (some ⟨c.id, c.name, tool_failure_text e⟩, [])) ∧
    (∀ (A : Type) (run : EngineRun A) (deltas : List StreamDelta),
        run.first_attempts 0 = Except.ok deltas →
        (reconstruct_tool_calls deltas).isEmpty = false →
        (stream_with_tool_calls run).model_calls = 2) := by
  refine ⟨?_, ?_, ?_⟩
  · intro A rt i c hempty
    unfold run_tool_call
    rw [show c.arguments.isEmpty = true from by rw [hempty]; rfl]
    simp
  · intro A rt i c f e havail hne hparse
    unfold run_tool_call
    rw [havail,
      show c.arguments.isEmpty = false from by
        rw [Bool.eq_false_iff]
        simpa [String.isEmpty_iff] using hne]
    simp [hparse]
  · intro A run deltas hfirst hcalls
    unfold stream_with_tool_calls
    rw [hfirst]
    simp only [hcalls, Bool.false_eq_true, if_false]
    cases run.final_attempts 0 <;> simp

/-- The execution trace of one loop iteration: the tool function is awaited
(started and finished) exactly when the name resolves and the arguments
parse (or are empty). -/
theorem run_tool_call_trace {A : Type} (rt : ToolRuntime A) (i : Nat) (c : ToolCall) :
    (run_tool_call rt i c).2 =
      if tool_invoked rt c then [ToolTraceStep.start i, ToolTraceStep.finish i] else [] := by
  unfold run_tool_call tool_invoked
  cases havail : rt.available_tools c.name with
  | none => simp [havail]
  | some f =>
    by_cases hemp : c.arguments.isEmpty
    · rw [if_pos hemp]
      cases hf : f (if c.name ∈ session_aware_tools then rt.inject_session_meta rt.empty_object
          else rt.empty_object) <;>
        simp [havail, hemp, hf]
    · rw [if_neg hemp]
      cases hparse : rt.parse_json c.arguments with
      | error e => simp [havail, hemp, hparse]
      | ok a =>
        cases hf : f (if c.name ∈ session_aware_tools then rt.inject_session_meta a else a) <;>
          simp [havail, hemp, hparse, hf]

/-- If call `j` of the loop is invoked, its start mark appears in the trace. -/
theorem start_mem_run_tool_calls {A : Type} (rt : ToolRuntime A) :
    ∀ (calls : List ToolCall) (i0 j : Nat) (hj : j < calls.length),
      tool_invoked rt (calls.get ⟨j, hj⟩) = true →
      ToolTraceStep.start (i0 + j) ∈ (run_tool_calls rt i0 calls).2.2
  | c :: rest, i0, 0, _, hinv => by
    simp only [run_tool_calls, run_tool_call_trace, List.get]
    rw [show (c :: rest).get ⟨0, by simp⟩ = c from rfl] at hinv
    simp [hinv]
  | c :: rest, i0, j + 1, hj, hinv => by
    have hj' : j < rest.length := by simpa using hj
    have hrec := start_mem_run_tool_calls rt rest (i0 + 1) j hj'
      (by simpa using hinv)
    rw [show i0 + 1 + j = i0 + (j + 1) from by omega] at hrec
    simp only [run_tool_calls]
    exact List.mem_append_right _ hrec

/-- Claim C9 as amended: within one round the engine executes the tool calls
strictly sequentially, in reconstruction order — whenever calls `i` and `j`
with `i < j` are both actually invoked, call `i`'s finish mark precedes call
`j`'s start mark in the execution trace: every later call waits for every
earlier call of the same round to finish before it starts. -/
theorem sequential_tool_execution :
    ∀ (A : Type) (rt : ToolRuntime A) (calls : List ToolCall) (i0 i j : Nat)
      (hi : i < calls.length) (hj : j < calls.length),
      i < j →
      tool_invoked rt (calls.get ⟨i, hi⟩) = true →
      tool_invoked rt (calls.get ⟨j, hj⟩) = true →
      List.Sublist [ToolTraceStep.finish (i0 + i), ToolTraceStep.start (i0 + j)]
        ((run_tool_calls rt i0 calls).2.2) := by
  intro A rt calls
  induction calls with
  | nil => intro i0 i j hi; exact absurd hi (by simp)
  | cons c rest ih =>
    intro i0 i j hi hj hij hinvi hinvj
    cases i with
    | zero =>
      cases j with
      | zero => exact absurd hij (lt_irrefl 0)
      | succ j' =>
        have hj' : j' < rest.length := by simpa using hj
        have hmem : ToolTraceStep.start (i0 + (j' + 1)) ∈ (run_tool_calls rt (i0 + 1) rest).2.2 := by
          have := start_mem_run_tool_calls rt rest (i0 + 1) j' hj' (by simpa using hinvj)
          rw [show i0 + 1 + j' = i0 + (j' + 1) from by omega] at this
          exact this
        have hc : tool_invoked rt c = true := by simpa using hinvi
        simp only [run_tool_calls, run_tool_call_trace, hc, if_true, Nat.add_zero]
        exact List.Sublist.cons _ ((List.singleton_sublist.mpr hmem).cons₂ _)
    | succ i' =>
      cases j with
      | zero => exact absurd hij (by omega)
      | succ j' =>
        have hi' : i' < rest.length := by simpa using hi
        have hj' : j' < rest.length := by simpa using hj
        have hrec := ih (i0 + 1) i' j' hi' hj' (by omega)
          (by simpa using hinvi) (by simpa using hinvj)
        rw [show i0 + 1 + i' = i0 + (i' + 1) from by omega,
          show i0 + 1 + j' = i0 + (j' + 1) from by omega] at hrec
        simp only [run_tool_calls]
        exact hrec.trans (List.sublist_append_right _ _)

/-- An engine run whose round reconstructs two tool calls, both invokable. -/
def two_tool_run : EngineRun Unit where
  first_attempts := fun _ => Except.ok
    [⟨none, [⟨0, some "ida", some "toolA", some ""⟩, ⟨1, some "idb", some "toolB", some ""⟩]⟩]
  final_attempts := fun _ => Except.ok [⟨some "done", []⟩]
  runtime := ⟨fun _ => some (fun _ => Except.ok "r"), fun _ => Except.ok (), (), id⟩

/-- Counterexample to claim C9.  In a round with two tool calls, the second
call starts strictly after the first call finishes: the execution trace of
the round is deterministically `start 0, finish 0, start 1, finish 1` —
there is no concurrent invocation, and the sibling ordering is fully
determined (the `for` loop awaits each call to completion before starting
the next). -/
theorem concurrent_tools_counterexample :
    (stream_with_tool_calls two_tool_run).trace =
      [ToolTraceStep.start 0, ToolTraceStep.finish 0,
        ToolTraceStep.start 1, ToolTraceStep.finish 1] ∧
    (stream_with_tool_calls two_tool_run).trace.indexOf (ToolTraceStep.finish 0) <
      (stream_with_tool_calls two_tool_run).trace.indexOf (ToolTraceStep.start 1) := by
  refine ⟨by decide, by decide⟩

theorem sequential_tool_execution_witness :
    List.Sublist [ToolTraceStep.finish 0, ToolTraceStep.start 1]
      ((run_tool_calls two_tool_run.runtime 0
        [⟨"ida", "toolA", ""⟩, ⟨"idb", "toolB", ""⟩]).2.2) :=
  sequential_tool_execution Unit two_tool_run.runtime
    [⟨"ida", "toolA", ""⟩, ⟨"idb", "toolB", ""⟩] 0 0 1
    (by decide) (by decide) (by decide) (by decide) (by decide)
